import Mathlib

set_option maxRecDepth 20000

/-!
Verification development for the top-riders spreadsheet pipeline of the
weather-site repository (public/js/top-riders).  The JavaScript sources are
shallowly embedded: pure functions become Lean functions, JS numbers are
modelled as integers (all numerals occurring in the modelled flows are
integral; fractional parts and exponents are outside the model), JS strings
become Lean strings, and fallible operations return Option.  Each definition
carries a reference to the source function it embeds.
-/

/-! ## JavaScript string primitives -/

/-- Whitespace characters recognised by the JS string trim operation and the
regex class backslash-s (ASCII whitespace plus no-break space; the rarer
Unicode space code points do not occur in the modelled data). -/
def isJsSpace (c : Char) : Bool :=
  c = ' ' || c = '\t' || c = '\n' || c = '\r' || c = '\x0b' || c = '\x0c' || c = ' '

/-- Characters treated as whitespace by JSON.parse (JSON specification). -/
def isJsonSpace (c : Char) : Bool :=
  c = ' ' || c = '\t' || c = '\n' || c = '\r'

/-- trim of a character list: drop leading and trailing JS whitespace. -/
def trimCharList (cs : List Char) : List Char :=
  ((cs.dropWhile isJsSpace).reverse.dropWhile isJsSpace).reverse

/-- Model of String.prototype.trim. -/
def jsTrim (s : String) : String :=
  String.mk (trimCharList s.data)

/-- ASCII lower-casing of one character. -/
def lowerChar (c : Char) : Char :=
  if 'A' ≤ c && c ≤ 'Z' then Char.ofNat (c.toNat + 32) else c

/-- Model of String.prototype.toLowerCase (ASCII; the tab names and headers
in the modelled data are ASCII). -/
def jsToLower (s : String) : String :=
  String.mk (s.data.map lowerChar)

/-- Split a character list at every occurrence of the separator, keeping
empty pieces, as String.prototype.split with a single-character separator. -/
def splitCharsAux (sep : Char) : List Char → List Char → List (List Char)
  | [], acc => [acc.reverse]
  | c :: rest, acc =>
    if c = sep then acc.reverse :: splitCharsAux sep rest []
    else splitCharsAux sep rest (c :: acc)

/-- Model of String.prototype.split with a one-character separator. -/
def jsSplit (s : String) (sep : Char) : List String :=
  (splitCharsAux sep s.data []).map String.mk

/-- Whether the first list is an initial segment of the second. -/
def leadSegment : List Char → List Char → Bool
  | [], _ => true
  | _ :: _, [] => false
  | a :: as, b :: bs => a = b && leadSegment as bs

/-- Whether the haystack contains the needle as a contiguous run. -/
def containsRun (needle : List Char) : List Char → Bool
  | [] => needle.isEmpty
  | c :: rest => leadSegment needle (c :: rest) || containsRun needle rest

/-- Model of s.includes(sub): substring containment. -/
def jsIncludes (s sub : String) : Bool :=
  containsRun sub.data s.data

/-- Model of cell.replace applied with the global regex that removes one
leading and one trailing double-quote character
(google-sheets-extractor.js line 159). -/
def stripOuterQuotes (s : String) : String :=
  let cs1 := match s.data with
    | '"' :: rest => rest
    | cs => cs
  let cs2 := if cs1.getLast? = some '"' then cs1.dropLast else cs1
  String.mk cs2

/-! ## JavaScript numeric parsing (integer-restricted model) -/

/-- Value of a nonempty digit sequence. -/
def digitsToNat (ds : List Char) : Nat :=
  ds.foldl (fun a c => a * 10 + (c.toNat - 48)) 0

/-- Model of the global parseInt applied to a string (radix 10 in the
modelled data): skip leading whitespace, optional sign, then the longest
digit run; no digits means NaN, modelled as none. -/
def parseIntJS (s : String) : Option Int :=
  let cs := s.data.dropWhile isJsSpace
  let core := fun (sign : Int) (rest : List Char) =>
    let ds := rest.takeWhile Char.isDigit
    if ds.isEmpty then (none : Option Int) else some (sign * (digitsToNat ds : Int))
  match cs with
  | '-' :: rest => core (-1) rest
  | '+' :: rest => core 1 rest
  | rest => core 1 rest

/-- Model of the global parseFloat: skip leading whitespace, optional sign,
then a decimal numeral prefix; no usable prefix means NaN, modelled as none.
The model truncates any fractional digits (all scores in the modelled data
are integral), and a numeral consisting of a bare fraction such as .5
contributes integer part 0. -/
def parseFloatJS (s : String) : Option Int :=
  let cs := s.data.dropWhile isJsSpace
  let core := fun (sign : Int) (rest : List Char) =>
    let ds := rest.takeWhile Char.isDigit
    let afterInt := rest.drop ds.length
    let fs := match afterInt with
      | '.' :: more => more.takeWhile Char.isDigit
      | _ => []
    if ds.isEmpty && fs.isEmpty then (none : Option Int)
    else some (sign * (digitsToNat ds : Int))
  match cs with
  | '-' :: rest => core (-1) rest
  | '+' :: rest => core 1 rest
  | rest => core 1 rest

/-! ## CSV parsing (GoogleSheetsExtractor.parseCSVText,
google-sheets-extractor.js lines 150-165) -/

/-- parseCSVText: split the text on newlines, trim each line, drop empty
lines, split each kept line on commas, trim each cell and strip one layer of
surrounding quotes. -/
def parseCSVText (csvText : String) : List (List String) :=
  ((jsSplit csvText '\n').map jsTrim).filter (fun line => line ≠ "")
    |>.map (fun line => (jsSplit line ',').map (fun cell => stripOuterQuotes (jsTrim cell)))

/-! ## Rider data model (design.md Rider interface) -/

/-- A parsed rider record (rider-data-parser.js parseRiderRow result).
The club field is Option because the source stores undefined when the club
cell is empty or the column is missing. -/
structure Rider where
  name : String
  position : Int
  points : Int
  club : Option String
  category : String
  deriving DecidableEq, Repr

/-- One fetched sheet tab: display name plus parsed CSV grid. -/
structure SheetTab where
  name : String
  data : List (List String)
  deriving DecidableEq, Repr

/-- Raw extraction result (the extractedAt timestamp carried by the source
object plays no role in the embedded flows and is omitted). -/
structure RawSheetData where
  sheets : List SheetTab
  deriving DecidableEq, Repr

/-- LEAGUE_CATEGORIES.MAIN_LEAGUE from constants.js (the constants file is
among the unnamed sources, part_012). -/
def LEAGUE_CATEGORIES_MAIN : String := "ML"

/-- LEAGUE_CATEGORIES.DEVELOPMENT_LEAGUE from constants.js (part_012). -/
def LEAGUE_CATEGORIES_DEV : String := "DL"

/-! ## Column mapping (RiderDataParser.findColumnIndices,
rider-data-parser.js lines 242-292) -/

/-- Column indices found in a header row; minus one means absent, exactly as
in the source object literal. -/
structure ColumnIndices where
  position : Int
  firstName : Int
  lastName : Int
  name : Int
  points : Int
  club : Int
  valid : Bool
  deriving DecidableEq, Repr

/-- Initial indices object of findColumnIndices. -/
def emptyIndices : ColumnIndices :=
  { position := -1, firstName := -1, lastName := -1, name := -1,
    points := -1, club := -1, valid := false }

/-- One step of the findColumnIndices loop: lower-case and trim the header
cell, skip it when empty, then run the if-else chain of exact matches
followed by the regex pattern groups (position, name, points, club).  The
regexes are anchored whole-string alternations, so they are membership tests
on the lowered trimmed header. -/
def updateIndices (acc : ColumnIndices) (i : Int) (cell : String) : ColumnIndices :=
  let header := jsTrim (jsToLower cell)
  if header = "" then acc
  else if header = "first name" then { acc with firstName := i }
  else if header = "last name" then { acc with lastName := i }
  else if header = "total" then { acc with points := i }
  else if header = "ci club" then { acc with club := i }
  else if header = "pos" || header = "position" || header = "rank" || header = "#" then
    { acc with position := i }
  else if header = "name" || header = "rider" || header = "cyclist" then
    { acc with name := i }
  else if header = "points" || header = "pts" || header = "total" then
    { acc with points := i }
  else if header = "club" || header = "team" then
    { acc with club := i }
  else acc

/-- findColumnIndices: fold the update step over the indexed header row and
then compute the validity flag exactly as in the source (firstName and
lastName and points, or lastName and points, or name and points). -/
def findColumnIndices (headerRow : List String) : ColumnIndices :=
  let r := (headerRow.enum).foldl (fun acc p => updateIndices acc (p.1 : Int) p.2) emptyIndices
  { r with valid :=
      (r.firstName ≥ 0 && r.lastName ≥ 0 && r.points ≥ 0) ||
      (r.lastName ≥ 0 && r.points ≥ 0) ||
      (r.name ≥ 0 && r.points ≥ 0) }

/-- JS array indexing row[i] for a possibly out-of-range or negative index:
undefined is modelled as none. -/
def cellAt (row : List String) (i : Int) : Option String :=
  if i < 0 then none else row.get? i.toNat

/-- Model of row[i]?.trim() followed by the or-empty-string default used for
the name cells in parseRiderRow. -/
def nameCell (row : List String) (i : Int) : String :=
  jsTrim ((cellAt row i).getD "")

/-! ## Row parsing (RiderDataParser.parseRiderRow,
rider-data-parser.js lines 301-341) -/

/-- parseRiderRow: build the name from firstName plus lastName, or lastName
alone, or the generic name column; return none for an empty name; parse the
position cell with parseInt defaulting to 0 (also when the column is absent
or the cell is missing), parse the points cell with parseFloat defaulting to
0 likewise; keep a nonempty trimmed club cell.  The source's try-catch
cannot fire in the embedded pure fragment. -/
def parseRiderRow (row : List String) (ci : ColumnIndices) (category : String) :
    Option Rider :=
  let name :=
    if ci.firstName ≥ 0 && ci.lastName ≥ 0 then
      jsTrim (nameCell row ci.firstName ++ " " ++ nameCell row ci.lastName)
    else if ci.lastName ≥ 0 then nameCell row ci.lastName
    else if ci.name ≥ 0 then nameCell row ci.name
    else ""
  if name = "" then none
  else
    let position : Int :=
      if ci.position ≥ 0 then ((cellAt row ci.position).bind parseIntJS).getD 0 else 0
    let points : Int :=
      if ci.points ≥ 0 then ((cellAt row ci.points).bind parseFloatJS).getD 0 else 0
    let club : Option String :=
      if ci.club ≥ 0 then
        let c := jsTrim ((cellAt row ci.club).getD "")
        if c = "" then none else some c
      else none
    some { name := name, position := position, points := points,
           club := club, category := category }

/-- RiderDataParser.validateRider (rider-data-parser.js lines 368-375): the
typeof checks hold by construction in the typed embedding; the residual
content is that the name is a nonempty string. -/
def validateRider (r : Rider) : Bool :=
  r.name.length > 0

/-- The blank-row test of the parseRiderData loop (rider-data-parser.js
line 218): the row is missing, empty, or every cell is falsy or trims to
the empty string. -/
def rowIsBlank (row : List String) : Bool :=
  row.isEmpty || row.all (fun cell => jsTrim cell = "")

/-- RiderDataParser.parseRiderData (rider-data-parser.js lines 195-235):
bail out on an empty section or an invalid header mapping, then keep, for
each non-blank data row, the parsed rider when it passes validateRider. -/
def parseRiderData (sectionData : List (List String)) (category : String) :
    List Rider :=
  match sectionData with
  | [] => []
  | headerRow :: rows =>
    let ci := findColumnIndices headerRow
    if !ci.valid then []
    else rows.filterMap (fun row =>
      if rowIsBlank row then none
      else match parseRiderRow row ci category with
        | some r => if validateRider r then some r else none
        | none => none)

/-- RiderDataParser.parseMainLeague (rider-data-parser.js lines 27-46):
find the sheet named Main League exactly or whose lowered name contains
main, and parse it with the ML category tag. -/
def parseMainLeague (rawData : RawSheetData) : List Rider :=
  match rawData.sheets.find? (fun sheet =>
      sheet.name = "Main League" || jsIncludes (jsToLower sheet.name) "main") with
  | none => []
  | some sheet =>
    if sheet.data.isEmpty then []
    else parseRiderData sheet.data LEAGUE_CATEGORIES_MAIN

/-! ## Ranking engine (ranking-engine.js) -/

/-- The ranking configuration object set up in the RankingEngine
constructor (ranking-engine.js lines 10-17). -/
structure RankConfig where
  minValidPoints : Int
  minValidPosition : Int
  maxValidPosition : Int
  deriving DecidableEq, Repr

/-- Default ranking configuration (ranking-engine.js lines 12-16). -/
def defaultRankConfig : RankConfig :=
  { minValidPoints := 0, minValidPosition := 1, maxValidPosition := 1000 }

/-- RankingEngine.isValidRider (ranking-engine.js lines 114-147), following
the source's check order: nonempty trimmed name, nonempty category (the
typeof and isNaN checks hold by construction in the typed embedding),
points at least the floor, and position within the configured band. -/
def isValidRider (cfg : RankConfig) (r : Rider) : Bool :=
  if (jsTrim r.name).length = 0 then false
  else if r.category.length = 0 then false
  else if r.points < cfg.minValidPoints then false
  else if r.position < cfg.minValidPosition || r.position > cfg.maxValidPosition then false
  else true

/-- RankingEngine.filterValidEntries (ranking-engine.js lines 101-107). -/
def filterValidEntries (cfg : RankConfig) (riders : List Rider) : List Rider :=
  riders.filter (fun r => isValidRider cfg r)

/-- Model of String.prototype.localeCompare under the lexicographic string
order: negative when the first string is smaller, positive when larger,
zero on equality. -/
def localeCompareInt (s t : String) : Int :=
  if s < t then -1 else if t < s then 1 else 0

/-- The comparator passed to Array.prototype.sort in
RankingEngine.sortByPoints (ranking-engine.js lines 50-65): points
descending, then position ascending, then name ascending. -/
def riderCmp (a b : Rider) : Int :=
  if b.points - a.points ≠ 0 then b.points - a.points
  else if a.position - b.position ≠ 0 then a.position - b.position
  else localeCompareInt a.name b.name

/-- The ordering induced by the comparator: a may precede b exactly when the
comparator is nonpositive. -/
def riderLE (a b : Rider) : Prop := riderCmp a b ≤ 0

instance : DecidableRel riderLE := fun a b =>
  inferInstanceAs (Decidable (riderCmp a b ≤ 0))

/-- RankingEngine.sortByPoints (ranking-engine.js lines 45-66): a stable
comparator-consistent sort of a copy of the input, modelled by insertion
sort with respect to the comparator ordering. -/
def sortByPoints (riders : List Rider) : List Rider :=
  List.insertionSort riderLE riders

/-- RankingEngine.getTopRiders (ranking-engine.js lines 25-38): empty input
gives an empty result; otherwise filter the valid entries, sort, and slice
the first max 0 count elements. -/
def getTopRiders (cfg : RankConfig) (riders : List Rider) (count : Int) : List Rider :=
  if riders.isEmpty then []
  else (sortByPoints (filterValidEntries cfg riders)).take (max 0 count).toNat

/-! ## Sheet batch fetching (GoogleSheetsExtractor.fetchAllSheets,
google-sheets-extractor.js lines 230-279) -/

/-- Outcome of one fetchWithTimeout call for a tab: a successful response
with CSV text, a response with a non-OK HTTP status, or a thrown failure
(timeout abort or transport error). -/
inductive FetchOutcome where
  | success (csvText : String)
  | httpError (status : Int)
  | thrown
  deriving DecidableEq, Repr

/-- The sheet produced by one loop iteration of fetchAllSheets, when the
fetch for that tab succeeds: the tab name with the parsed CSV grid. -/
def sheetFromFetch : String × FetchOutcome → Option SheetTab
  | (tabName, .success t) => some { name := tabName, data := parseCSVText t }
  | _ => none

/-- The fetch loop of fetchAllSheets: a non-OK response hits the continue
branch, a thrown error hits the catch branch, and both skip to the next
tab; only successful tabs are pushed. -/
def fetchSheetsLoop : List (String × FetchOutcome) → List SheetTab
  | [] => []
  | (tabName, .success t) :: rest =>
    { name := tabName, data := parseCSVText t } :: fetchSheetsLoop rest
  | (_, .httpError _) :: rest => fetchSheetsLoop rest
  | (_, .thrown) :: rest => fetchSheetsLoop rest

/-- fetchAllSheets over the per-tab outcomes: run the loop, then throw the
no-data error exactly when no sheet was collected. -/
def fetchAllSheets (results : List (String × FetchOutcome)) :
    Except String (List SheetTab) :=
  let sheets := fetchSheetsLoop results
  if sheets.length = 0 then Except.error "Failed to fetch any sheet data"
  else Except.ok sheets

/-! ## JSON value model for the cache layer -/

/-- JavaScript values flowing through the cache: the JSON constructors plus
a date wrapper jdate v modelling the result of new Date(v) produced by the
date-restoration pass.  Object fields keep insertion order, as JS string
keys do. -/
inductive JVal where
  | jnull
  | jbool (b : Bool)
  | jnum (n : Int)
  | jstr (s : String)
  | jdate (v : JVal)
  | jarr (elems : List JVal)
  | jobj (fields : List (String × JVal))

/-- Truthiness of a JS value (empty string, zero, false, null are falsy). -/
def jvTruthy : JVal → Bool
  | .jnull => false
  | .jbool b => b
  | .jnum n => n ≠ 0
  | .jstr s => s ≠ ""
  | _ => true

/-- Whether typeof yields the string object for the value (true for null,
arrays, plain objects and dates). -/
def jvTypeofObject : JVal → Bool
  | .jnull => true
  | .jarr _ => true
  | .jobj _ => true
  | .jdate _ => true
  | _ => false

/-- Lower-case hexadecimal digit, as produced by JSON.stringify escapes. -/
def hexDigitChar (n : Nat) : Char :=
  if n < 10 then Char.ofNat (48 + n) else Char.ofNat (87 + n)

/-- JSON.stringify escaping of one character inside a string literal. -/
def escapeChar (c : Char) : List Char :=
  if c = '"' then ['\\', '"']
  else if c = '\\' then ['\\', '\\']
  else if c = '\x08' then ['\\', 'b']
  else if c = '\x0c' then ['\\', 'f']
  else if c = '\n' then ['\\', 'n']
  else if c = '\r' then ['\\', 'r']
  else if c = '\t' then ['\\', 't']
  else if c.toNat < 32 then
    ['\\', 'u', '0', '0', hexDigitChar (c.toNat / 16), hexDigitChar (c.toNat % 16)]
  else [c]

/-- JSON.stringify rendering of the characters of a string literal body. -/
def escapeList : List Char → List Char
  | [] => []
  | c :: rest => escapeChar c ++ escapeList rest

mutual
/-- Character stream of JSON.stringify (no indent argument, hence no
whitespace between tokens).  A jdate value serialises like its payload: the
dates reaching serialisation in the modelled flows are wrappers around the
canonical timestamp strings they were restored from, and
Date.prototype.toJSON reproduces exactly that string. -/
def jsonChars : JVal → List Char
  | .jnull => ['n', 'u', 'l', 'l']
  | .jbool true => ['t', 'r', 'u', 'e']
  | .jbool false => ['f', 'a', 'l', 's', 'e']
  | .jnum n => (toString n).data
  | .jstr s => '"' :: (escapeList s.data ++ ['"'])
  | .jdate v => jsonChars v
  | .jarr es => '[' :: (elemsChars es ++ [']'])
  | .jobj fs => '\x7b' :: (fieldsChars fs ++ ['\x7d'])

/-- Comma-separated serialisation of array elements. -/
def elemsChars : List JVal → List Char
  | [] => []
  | [v] => jsonChars v
  | v :: w :: rest => jsonChars v ++ ',' :: elemsChars (w :: rest)

/-- Comma-separated serialisation of object fields. -/
def fieldsChars : List (String × JVal) → List Char
  | [] => []
  | [(k, v)] => '"' :: (escapeList k.data ++ '"' :: ':' :: jsonChars v)
  | (k, v) :: w :: rest =>
    '"' :: (escapeList k.data ++ '"' :: ':' :: jsonChars v) ++ ',' :: fieldsChars (w :: rest)
end

/-- Model of JSON.stringify. -/
def jsonStringify (v : JVal) : String :=
  String.mk (jsonChars v)

/-- Skip JSON whitespace. -/
def skipJsonWs (cs : List Char) : List Char :=
  cs.dropWhile isJsonSpace

/-- Value of a hexadecimal digit, 0 when the character is not one (the
caller only applies it after validation). -/
def hexVal (c : Char) : Nat :=
  if '0' ≤ c && c ≤ '9' then c.toNat - 48
  else if 'a' ≤ c && c ≤ 'f' then c.toNat - 87
  else if 'A' ≤ c && c ≤ 'F' then c.toNat - 55
  else 0

/-- Whether a character is a hexadecimal digit. -/
def isHexDigit (c : Char) : Bool :=
  ('0' ≤ c && c ≤ '9') || ('a' ≤ c && c ≤ 'f') || ('A' ≤ c && c ≤ 'F')

/-- String-literal body scanner of the JSON parser: consume characters up
to the closing quote, decoding escapes; raw control characters are
rejected, as JSON.parse does.  The fuel argument dominates the number of
remaining characters. -/
def parseJsonStr : Nat → List Char → List Char → Option (String × List Char)
  | 0, _, _ => none
  | _ + 1, [], _ => none
  | _ + 1, '"' :: rest, acc => some (String.mk acc.reverse, rest)
  | fuel + 1, '\\' :: e :: rest, acc =>
    if e = '"' then parseJsonStr fuel rest ('"' :: acc)
    else if e = '\\' then parseJsonStr fuel rest ('\\' :: acc)
    else if e = '/' then parseJsonStr fuel rest ('/' :: acc)
    else if e = 'b' then parseJsonStr fuel rest ('\x08' :: acc)
    else if e = 'f' then parseJsonStr fuel rest ('\x0c' :: acc)
    else if e = 'n' then parseJsonStr fuel rest ('\n' :: acc)
    else if e = 'r' then parseJsonStr fuel rest ('\r' :: acc)
    else if e = 't' then parseJsonStr fuel rest ('\t' :: acc)
    else if e = 'u' then
      match rest with
      | h1 :: h2 :: h3 :: h4 :: rest2 =>
        if isHexDigit h1 && isHexDigit h2 && isHexDigit h3 && isHexDigit h4 then
          parseJsonStr fuel rest2
            (Char.ofNat (((hexVal h1 * 16 + hexVal h2) * 16 + hexVal h3) * 16 + hexVal h4) :: acc)
        else none
      | _ => none
    else none
  | fuel + 1, c :: rest, acc =>
    if c.toNat < 32 then none else parseJsonStr fuel rest (c :: acc)

/-- Numeral scanner of the JSON parser, restricted to the integral numerals
produced by serialising the integer-valued model: optional minus sign and a
digit run (fractional and exponent parts do not occur in the modelled
payloads). -/
def parseJsonNum (cs : List Char) : Option (Int × List Char) :=
  let core := fun (sign : Int) (rest : List Char) =>
    let ds := rest.takeWhile Char.isDigit
    if ds.isEmpty then (none : Option (Int × List Char))
    else some (sign * (digitsToNat ds : Int), rest.drop ds.length)
  match cs with
  | '-' :: rest => core (-1) rest
  | rest => core 1 rest

mutual
/-- Model of the value grammar of JSON.parse.  The fuel argument dominates
the recursion depth; parseJson supplies enough for any input. -/
def parseJsonVal : Nat → List Char → Option (JVal × List Char)
  | 0, _ => none
  | fuel + 1, cs =>
    match skipJsonWs cs with
    | 'n' :: 'u' :: 'l' :: 'l' :: rest => some (.jnull, rest)
    | 't' :: 'r' :: 'u' :: 'e' :: rest => some (.jbool true, rest)
    | 'f' :: 'a' :: 'l' :: 's' :: 'e' :: rest => some (.jbool false, rest)
    | '"' :: rest => (parseJsonStr fuel rest []).map (fun p => (.jstr p.1, p.2))
    | '[' :: rest =>
      (match skipJsonWs rest with
       | ']' :: rest2 => some (.jarr [], rest2)
       | other => (parseJsonArr fuel other).map (fun p => (.jarr p.1, p.2)))
    | '\x7b' :: rest =>
      (match skipJsonWs rest with
       | '\x7d' :: rest2 => some (.jobj [], rest2)
       | other => (parseJsonObj fuel other).map (fun p => (.jobj p.1, p.2)))
    | other => (parseJsonNum other).map (fun p => (.jnum p.1, p.2))

/-- Element list of a nonempty JSON array, expecting at least one value. -/
def parseJsonArr : Nat → List Char → Option (List JVal × List Char)
  | 0, _ => none
  | fuel + 1, cs =>
    match parseJsonVal fuel cs with
    | none => none
    | some (v, rest) =>
      match skipJsonWs rest with
      | ',' :: rest2 => (parseJsonArr fuel rest2).map (fun p => (v :: p.1, p.2))
      | ']' :: rest2 => some ([v], rest2)
      | _ => none

/-- Field list of a nonempty JSON object, expecting at least one pair. -/
def parseJsonObj : Nat → List Char → Option (List (String × JVal) × List Char)
  | 0, _ => none
  | fuel + 1, cs =>
    match skipJsonWs cs with
    | '"' :: rest =>
      match parseJsonStr fuel rest [] with
      | none => none
      | some (k, rest2) =>
        match skipJsonWs rest2 with
        | ':' :: rest3 =>
          match parseJsonVal fuel rest3 with
          | none => none
          | some (v, rest4) =>
            match skipJsonWs rest4 with
            | ',' :: rest5 => (parseJsonObj fuel rest5).map (fun p => ((k, v) :: p.1, p.2))
            | '\x7d' :: rest5 => some ([(k, v)], rest5)
            | _ => none
        | _ => none
    | _ => none
end

/-- Model of JSON.parse: parse one value and require only whitespace after
it; a failure models the thrown SyntaxError. -/
def parseJson (s : String) : Option JVal :=
  match parseJsonVal (s.data.length + 2) s.data with
  | some (v, rest) => if skipJsonWs rest = [] then some v else none
  | none => none

/-! ## Cache manager (cache-manager.js) -/

/-- One step of the global regex replacement of whitespace runs by a single
space: the flag records whether the previous character belonged to a run. -/
def collapseWsAux : Bool → List Char → List Char
  | _, [] => []
  | prevWs, c :: rest =>
    if isJsSpace c then
      if prevWs then collapseWsAux true rest
      else ' ' :: collapseWsAux true rest
    else c :: collapseWsAux false rest

/-- Model of jsonString.replace with the global whitespace-run regex, as
used by CacheManager.compressData (cache-manager.js line 312). -/
def collapseWs (s : String) : String :=
  String.mk (collapseWsAux false s.data)

/-- CacheManager.compressData (cache-manager.js lines 308-317): stringify
the data, collapse whitespace runs and trim. -/
def compressData (data : JVal) : String :=
  jsTrim (collapseWs (jsonStringify data))

/-- CacheManager.decompressData (cache-manager.js lines 324-331):
JSON.parse of the stored string, with the catch clause returning null.
Compressed payloads are always stored as strings; the other constructors
are unreachable there. -/
def decompressData : JVal → JVal
  | .jstr s => (parseJson s).getD .jnull
  | _ => .jnull

mutual
/-- CacheManager.restoreDateObjects (cache-manager.js lines 338-359):
primitives pass through, arrays map recursively, and objects rebuild each
field, wrapping the timestamp-named keys in a date and recursing into
object-typed values. -/
def restoreDateObjects : JVal → JVal
  | .jarr es => .jarr (restoreDateElems es)
  | .jobj fs => .jobj (restoreDateFields fs)
  | v => v

/-- Array branch of restoreDateObjects. -/
def restoreDateElems : List JVal → List JVal
  | [] => []
  | v :: rest => restoreDateObjects v :: restoreDateElems rest

/-- Object branch of restoreDateObjects: the keys lastUpdated, extractedAt
and timestamp get wrapped in new Date(value); other object-typed values
(null included, for which the recursion is the identity) recurse; the rest
copy over. -/
def restoreDateFields : List (String × JVal) → List (String × JVal)
  | [] => []
  | (k, v) :: rest =>
    (if k = "lastUpdated" || k = "extractedAt" || k = "timestamp" then (k, JVal.jdate v)
     else if jvTypeofObject v then (k, restoreDateObjects v)
     else (k, v)) :: restoreDateFields rest
end

/-- Association-list lookup modelling localStorage.getItem. -/
def lookupAssoc {α : Type} (st : List (String × α)) (key : String) : Option α :=
  match st.find? (fun kv => kv.1 = key) with
  | some kv => some kv.2
  | none => none

/-- Association-list removal modelling localStorage.removeItem. -/
def eraseAssoc {α : Type} (st : List (String × α)) (key : String) : List (String × α) :=
  st.filter (fun kv => kv.1 ≠ key)

/-- Association-list overwrite modelling localStorage.setItem. -/
def setAssoc {α : Type} (st : List (String × α)) (key : String) (v : α) :
    List (String × α) :=
  (key, v) :: eraseAssoc st key

/-- Configuration of a CacheManager instance (cache-manager.js lines 13-18),
together with the browser-environment strings stored into the metadata. -/
structure CMConfig where
  cacheExpiry : Int
  maxCacheSize : Nat
  compressionEnabled : Bool
  userAgent : String
  url : String
  deriving Repr

/-- Default CacheManager configuration: ten-minute expiry
(DEFAULT_CONFIG.CACHE_EXPIRY, 600000 ms, from constants.js in part_012) and
the five-megabyte size cap of the CacheManager constructor. -/
def defaultCMConfig : CMConfig :=
  { cacheExpiry := 600000, maxCacheSize := 5 * 1024 * 1024,
    compressionEnabled := true, userAgent := "", url := "" }

/-- Options object accepted by CacheManager.set. -/
structure CMOptions where
  version : Option String
  expiry : Option Int
  metadataExtra : List (String × JVal)

/-- Empty options object. -/
def noCMOptions : CMOptions :=
  { version := none, expiry := none, metadataExtra := [] }

/-- JS or-default over an optional string (the empty string is falsy). -/
def jsOrStr (o : Option String) (d : String) : String :=
  match o with
  | some s => if s = "" then d else s
  | none => d

/-- JS or-default over an optional integer (zero is falsy). -/
def jsOrInt (o : Option Int) (d : Int) : Int :=
  match o with
  | some n => if n = 0 then d else n
  | none => d

/-- The cache entry object built by CacheManager.set.  The metadata keeps
the fields the source stores (userAgent, url, dataSize, then the caller
extras); storage holds the structured entry, the JSON round-trip of the
envelope being the identity on JSON data. -/
structure CacheEntry where
  data : JVal
  timestamp : Int
  version : String
  metaUserAgent : String
  metaUrl : String
  metaDataSize : Nat
  metaExtra : List (String × JVal)
  expiry : Int
  compressed : Bool

/-- Cache storage: the localStorage key space restricted to the structured
entries. -/
def CMStorage : Type := List (String × CacheEntry)

/-- The JSON object that JSON.stringify serialises for a cache entry, with
fields in creation order; the compressed flag is only present when the
compression branch ran, matching the source which adds the property only
then. -/
def entryToJVal (e : CacheEntry) : JVal :=
  .jobj ([("data", e.data),
          ("timestamp", .jnum e.timestamp),
          ("version", .jstr e.version),
          ("metadata", .jobj ([("userAgent", .jstr e.metaUserAgent),
                               ("url", .jstr e.metaUrl),
                               ("dataSize", .jnum (e.metaDataSize : Int))] ++ e.metaExtra)),
          ("expiry", .jnum e.expiry)] ++
         (if e.compressed then [("compressed", .jbool true)] else []))

/-- CacheManager.set (cache-manager.js lines 27-79): build the entry with
the current timestamp, compress when enabled and the serialised data
exceeds 1024 characters, refuse to store when the serialised entry exceeds
the size cap (returning false), and otherwise overwrite the key.  The
quota-exceeded retry path concerns the browser storage collaborator and is
outside the pure model. -/
def cmSet (cfg : CMConfig) (opt : CMOptions) (now : Int) (key : String)
    (data : JVal) (st : CMStorage) : Bool × CMStorage :=
  let dataSize := (jsonStringify data).length
  let compressed := cfg.compressionEnabled && dataSize > 1024
  let storedData := if compressed then JVal.jstr (compressData data) else data
  let entry : CacheEntry :=
    { data := storedData, timestamp := now,
      version := jsOrStr opt.version "1.0",
      metaUserAgent := cfg.userAgent, metaUrl := cfg.url,
      metaDataSize := dataSize, metaExtra := opt.metadataExtra,
      expiry := jsOrInt opt.expiry cfg.cacheExpiry,
      compressed := compressed }
  let serialized := jsonStringify (entryToJVal entry)
  if serialized.length > cfg.maxCacheSize then (false, st)
  else (true, setAssoc st key entry)

/-- CacheManager.get (cache-manager.js lines 87-131): missing key gives
null; an entry older than its expiry (with the or-default falling back to
the configured expiry, unless ignoreExpiry raises it to infinity) is
removed and gives null; otherwise the data is decompressed when needed and
the date keys are restored when the value is a truthy object. -/
def cmGet (cfg : CMConfig) (ignoreExpiry : Bool) (now : Int) (key : String)
    (st : CMStorage) : Option JVal × CMStorage :=
  match lookupAssoc st key with
  | none => (none, st)
  | some e =>
    let age := now - e.timestamp
    let expired := !ignoreExpiry && age > jsOrInt (some e.expiry) cfg.cacheExpiry
    if expired then (none, eraseAssoc st key)
    else
      let data := if e.compressed then decompressData e.data else e.data
      let data := if jvTruthy data && jvTypeofObject data then restoreDateObjects data else data
      (some data, st)

/-! ## Orchestrator data loading (TopRidersApp, main.js) -/

/-- STORAGE_KEYS.CACHED_DATA from constants.js (part_012), the single
well-known localStorage key of the orchestrator cache. -/
def CACHED_DATA_KEY : String := "topRiders_cachedData"

/-- A localStorage cache entry as written by TopRidersApp.cacheData
(main.js lines 239-249): the data with a write timestamp. -/
structure MainCacheEntry where
  data : JVal
  timestamp : Int

/-- The localStorage key space restricted to the orchestrator cache
entries. -/
def MainStorage : Type := List (String × MainCacheEntry)

/-- The truthy-guarded date restoration of TopRidersApp.getCachedData
(main.js lines 269-272): when data.lastUpdated is truthy it is replaced by
new Date of itself. -/
def restoreLastUpdated : JVal → JVal
  | .jobj fields =>
    .jobj (fields.map (fun kv =>
      if kv.1 = "lastUpdated" && jvTruthy kv.2 then (kv.1, JVal.jdate kv.2) else kv))
  | v => v

/-- TopRidersApp.cacheData (main.js lines 239-249): store the data with the
current time under the fixed key. -/
def cacheDataMain (now : Int) (data : JVal) (st : MainStorage) : MainStorage :=
  setAssoc st CACHED_DATA_KEY { data := data, timestamp := now }

/-- TopRidersApp.getCachedData (main.js lines 255-279): missing entry gives
null; an entry older than the configured expiry is removed and gives null;
otherwise the data is returned with lastUpdated restored to a date. -/
def getCachedDataMain (cacheExpiry : Int) (now : Int) (st : MainStorage) :
    Option JVal × MainStorage :=
  match lookupAssoc st CACHED_DATA_KEY with
  | none => (none, st)
  | some e =>
    let age := now - e.timestamp
    if age > cacheExpiry then (none, eraseAssoc st CACHED_DATA_KEY)
    else (some (restoreLastUpdated e.data), st)

/-- Orchestrator configuration slice relevant to loadData. -/
structure LoadConfig where
  hasSheetsUrl : Bool
  enableCaching : Bool
  cacheExpiry : Int

/-- Outcome of one loadData pass: a rendered result set or the no-data
error display. -/
inductive LoadOutcome where
  | rendered (data : JVal)
  | errorShown

/-- TopRidersApp.loadData (main.js lines 87-132): try the live pipeline
when a source URL is configured (fetchFreshData catches its own failures
and yields null, modelled as none), fall back to the cache when the fresh
data is missing, and on any data render it and re-store it through
cacheData when caching is enabled; with nothing to show, display the
no-data error.  The catch clause guards against display-layer throws,
which the pure model cannot produce. -/
def loadData (cfg : LoadConfig) (now : Int) (fresh : Option JVal)
    (st : MainStorage) : LoadOutcome × MainStorage :=
  let fromFetch : Option JVal := if cfg.hasSheetsUrl then fresh else none
  let (shown, st1) :=
    match fromFetch with
    | some d => (some d, st)
    | none =>
      if cfg.enableCaching then getCachedDataMain cfg.cacheExpiry now st
      else (none, st)
  match shown with
  | some d =>
    let st2 := if cfg.enableCaching then cacheDataMain now d st1 else st1
    (LoadOutcome.rendered d, st2)
  | none => (LoadOutcome.errorShown, st1)

/-! ## Refresh re-entrancy (TopRidersApp.refreshData) -/

/-- Abstract orchestrator state for the refresh protocol: how many loadData
passes are currently in flight, and the isRefreshing flag kept by the
CacheManager-enabled orchestrator variant. -/
structure RefreshState where
  inFlight : Nat
  refreshing : Bool
  deriving DecidableEq, Repr

/-- Initial orchestrator state. -/
def initialRefreshState : RefreshState :=
  { inFlight := 0, refreshing := false }

/-- Events of the refresh protocol: a call to refreshData (manual retry,
auto-refresh timer, visibility or connectivity handler) and the completion
of one in-flight loadData pass. -/
inductive RefreshEvent where
  | call
  | complete
  deriving DecidableEq, Repr

/-- Step function of the base orchestrator (main.js lines 310-313): its
refreshData awaits loadData unconditionally, so every call starts another
load; a completion finishes one. -/
def refreshStepBase (s : RefreshState) : RefreshEvent → RefreshState
  | .call => { s with inFlight := s.inFlight + 1 }
  | .complete => { s with inFlight := s.inFlight - 1 }

/-- Step function of the CacheManager-enabled orchestrator variant (the
enhanced main module, source part_008 lines 397-410): a call is dropped
while isRefreshing is set, otherwise it sets the flag and starts a load;
the finally clause clears the flag on completion. -/
def refreshStepGuarded (s : RefreshState) : RefreshEvent → RefreshState
  | .call =>
    if s.refreshing then s
    else { inFlight := s.inFlight + 1, refreshing := true }
  | .complete => { inFlight := s.inFlight - 1, refreshing := false }

/-- Run a trace of refresh events through the base orchestrator. -/
def runBase (events : List RefreshEvent) : RefreshState :=
  events.foldl refreshStepBase initialRefreshState

/-- Run a trace of refresh events through the guarded orchestrator
variant. -/
def runGuarded (events : List RefreshEvent) : RefreshState :=
  events.foldl refreshStepGuarded initialRefreshState

/-! ## Concrete fixtures used by the claim theorems -/

/-- The tab CSV text of end-to-end scenario 1. -/
def c1CsvText : String :=
  "First Name,Last Name,Total,CI Club\nJohn,Doe,150,Test Club\nJane,Smith,140,Another Club"

/-- The raw sheet data delivered by a successful fetch of that text for the
main-league tab. -/
def c1RawData : RawSheetData :=
  { sheets := [{ name := "Main League", data := parseCSVText c1CsvText }] }

/-- The two entries the specification expects scenario 1 to produce. -/
def c1Expected : List Rider :=
  [ { name := "John Doe", position := 0, points := 150,
      club := some "Test Club", category := "ML" },
    { name := "Jane Smith", position := 0, points := 140,
      club := some "Another Club", category := "ML" } ]

/-- Column indices of the scenario header row. -/
def c1Indices : ColumnIndices :=
  findColumnIndices ["First Name", "Last Name", "Total", "CI Club"]

/-- The rider parsed from the first scenario data row. -/
def c2Rider : Rider :=
  { name := "John Doe", position := 0, points := 150,
    club := some "Test Club", category := "ML" }

/-- A grid whose single data row has a non-numeric score cell. -/
def c3Grid : List (List String) :=
  [["First Name", "Last Name", "Total", "CI Club"],
   ["John", "Doe", "abc", "X"]]

/-- Padding string making the serialised cache payload exceed the
compression threshold. -/
def c7Pad : String := String.mk (List.replicate 1010 'a')

/-- A cache payload above the compression threshold whose name field holds
two consecutive spaces. -/
def c7Data : JVal := .jobj [("name", .jstr "x  y"), ("pad", .jstr c7Pad)]

/-- Projection reading the name field of a retrieved cache payload. -/
def c7NameOf : Option JVal → Option String
  | some (.jobj (("name", .jstr s) :: _)) => some s
  | _ => none

/-- Projection reading the write timestamp of the orchestrator cache
entry. -/
def mainCacheTimestamp (st : MainStorage) : Option Int :=
  (lookupAssoc st CACHED_DATA_KEY).map (fun e => e.timestamp)

/-- A cached result set fixture for the fallback scenario. -/
def c8Cached : JVal :=
  .jobj [("mainLeague", .jarr []), ("lastUpdated", .jstr "2025-06-01T10:00:00.000Z")]

/-- Storage holding the fallback fixture written at time zero. -/
def c8Storage : MainStorage :=
  [(CACHED_DATA_KEY, { data := c8Cached, timestamp := 0 })]

/-- Orchestrator configuration fixture with caching enabled. -/
def c8Config : LoadConfig :=
  { hasSheetsUrl := true, enableCaching := true, cacheExpiry := 600000 }

/-! ## Lemmas about the comparator ordering -/

theorem localeCompareInt_nonpos_iff (s t : String) :
    localeCompareInt s t ≤ 0 ↔ s ≤ t := by
  unfold localeCompareInt
  split_ifs with h1 h2
  · exact iff_of_true (by norm_num) (le_of_lt h1)
  · exact iff_of_false (by norm_num) (not_le.mpr h2)
  · exact iff_of_true (by norm_num) (not_lt.mp h2)

theorem riderLE_iff (a b : Rider) : riderLE a b ↔
    (b.points < a.points ∨
      (b.points = a.points ∧
        (a.position < b.position ∨
          (a.position = b.position ∧ a.name ≤ b.name)))) := by
  unfold riderLE riderCmp
  split_ifs with h1 h2
  · constructor
    · intro h
      exact Or.inl (by omega)
    · rintro (h | ⟨he, _⟩) <;> omega
  · constructor
    · intro h
      exact Or.inr ⟨by omega, Or.inl (by omega)⟩
    · rintro (h | ⟨he, h | ⟨hp, _⟩⟩) <;> omega
  · rw [localeCompareInt_nonpos_iff]
    constructor
    · intro h
      exact Or.inr ⟨by omega, Or.inr ⟨by omega, h⟩⟩
    · rintro (h | ⟨he, h | ⟨hp, hn⟩⟩)
      · omega
      · omega
      · exact hn

instance : IsTrans Rider riderLE := by
  constructor
  intro a b c hab hbc
  rw [riderLE_iff] at hab hbc ⊢
  rcases hab with h1 | ⟨e1, h1⟩ <;> rcases hbc with h2 | ⟨e2, h2⟩
  · exact Or.inl (by omega)
  · exact Or.inl (by omega)
  · exact Or.inl (by omega)
  · rcases h1 with p1 | ⟨q1, n1⟩ <;> rcases h2 with p2 | ⟨q2, n2⟩
    · exact Or.inr ⟨by omega, Or.inl (by omega)⟩
    · exact Or.inr ⟨by omega, Or.inl (by omega)⟩
    · exact Or.inr ⟨by omega, Or.inl (by omega)⟩
    · exact Or.inr ⟨by omega, Or.inr ⟨by omega, le_trans n1 n2⟩⟩

instance : IsTotal Rider riderLE := by
  constructor
  intro a b
  rw [riderLE_iff, riderLE_iff]
  rcases lt_trichotomy a.points b.points with hp | hp | hp
  · exact Or.inr (Or.inl hp)
  · rcases lt_trichotomy a.position b.position with hq | hq | hq
    · exact Or.inl (Or.inr ⟨hp.symm, Or.inl hq⟩)
    · rcases le_total a.name b.name with hn | hn
      · exact Or.inl (Or.inr ⟨hp.symm, Or.inr ⟨hq, hn⟩⟩)
      · exact Or.inr (Or.inr ⟨hp, Or.inr ⟨hq.symm, hn⟩⟩)
    · exact Or.inr (Or.inr ⟨hp, Or.inl hq⟩)
  · exact Or.inl (Or.inl hp)

theorem sortByPoints_sorted (l : List Rider) :
    (sortByPoints l).Pairwise riderLE :=
  List.sorted_insertionSort riderLE l

theorem sortByPoints_perm (l : List Rider) : List.Perm (sortByPoints l) l :=
  List.perm_insertionSort riderLE l

theorem riderLE_points (a b : Rider) (h : riderLE a b) : b.points ≤ a.points := by
  rw [riderLE_iff] at h
  rcases h with h | ⟨he, _⟩ <;> omega

theorem isValidRider_eq_true_iff (cfg : RankConfig) (r : Rider) :
    isValidRider cfg r = true ↔
      ((jsTrim r.name).length ≠ 0 ∧ r.category.length ≠ 0 ∧
        cfg.minValidPoints ≤ r.points ∧ cfg.minValidPosition ≤ r.position ∧
        r.position ≤ cfg.maxValidPosition) := by
  unfold isValidRider
  split_ifs with h1 h2 h3 h4 <;> (simp_all; try omega)

theorem stringLengthPos (s : String) (h : s ≠ "") : 0 < s.length := by
  rcases s with ⟨cs⟩
  cases cs with
  | nil => exact absurd rfl h
  | cons c rest => simp [String.length]

/-! ## Claim theorems -/

/-- C4: for every list of entries and every integer n, topN (getTopRiders)
first filters out invalid entries, then sorts, then returns a sequence of
length min(n, number of valid entries), sorted non-increasing by score; for
every n at most 0 it returns the empty sequence. -/
theorem C4_topN_shape (riders : List Rider) (n : Int) :
    getTopRiders defaultRankConfig riders n =
      (sortByPoints (filterValidEntries defaultRankConfig riders)).take (max 0 n).toNat ∧
    (0 ≤ n → (getTopRiders defaultRankConfig riders n).length =
      min n.toNat (filterValidEntries defaultRankConfig riders).length) ∧
    (getTopRiders defaultRankConfig riders n).Pairwise (fun a b => b.points ≤ a.points) ∧
    (n ≤ 0 → getTopRiders defaultRankConfig riders n = []) := by
  have hshape : getTopRiders defaultRankConfig riders n =
      (sortByPoints (filterValidEntries defaultRankConfig riders)).take (max 0 n).toNat := by
    unfold getTopRiders
    by_cases h : riders.isEmpty
    · have : riders = [] := List.isEmpty_iff.mp h
      subst this
      simp [filterValidEntries, sortByPoints, List.insertionSort]
    · simp [h]
  refine ⟨hshape, ?_, ?_, ?_⟩
  · intro hn
    rw [hshape, List.length_take,
        (sortByPoints_perm (filterValidEntries defaultRankConfig riders)).length_eq]
    omega
  · rw [hshape]
    exact ((sortByPoints_sorted _).sublist (List.take_sublist _ _)).imp
      (by intro a b h; exact riderLE_points a b h)
  · intro hn
    rw [hshape]
    have : (max 0 n).toNat = 0 := by omega
    rw [this, List.take_zero]

/-- Witness for C4 at concrete inputs. -/
theorem C4_topN_shape_witness :
    ((getTopRiders defaultRankConfig
        [{ name := "A", position := 1, points := 10, club := none, category := "ML" },
         { name := "B", position := 2, points := 5, club := none, category := "ML" }] 1).length =
      min (1 : Int).toNat (filterValidEntries defaultRankConfig
        [{ name := "A", position := 1, points := 10, club := none, category := "ML" },
         { name := "B", position := 2, points := 5, club := none, category := "ML" }]).length) ∧
    getTopRiders defaultRankConfig
        [{ name := "A", position := 1, points := 10, club := none, category := "ML" }] (-1) = [] :=
  ⟨(C4_topN_shape _ 1).2.1 (by decide), (C4_topN_shape _ (-1)).2.2.2 (by decide)⟩

/-- C5: the ranking sort orders entries by score descending, then position
ascending, then name ascending (locale comparison modelled by the
lexicographic string order); the output is a permutation of the input, and
determinism across repeated calls is definitional since the sort is a pure
function. -/
theorem C5_sort_order (l : List Rider) :
    List.Perm (sortByPoints l) l ∧
    (sortByPoints l).Pairwise (fun a b =>
      b.points < a.points ∨
      (b.points = a.points ∧
        (a.position < b.position ∨
          (a.position = b.position ∧ a.name ≤ b.name)))) :=
  ⟨sortByPoints_perm l,
   (sortByPoints_sorted l).imp (by intro a b h; exact (riderLE_iff a b).mp h)⟩

/-- C10: every entry in the output of getTopRiders satisfies the full
validity predicate of isValidRider under the default configuration; in
particular its position is at least 1 and at most 1000, so a parser-default
position of 0 never appears in any ranked output. -/
theorem C10_output_invariant (riders : List Rider) (n : Int) (r : Rider)
    (hr : r ∈ getTopRiders defaultRankConfig riders n) :
    jsTrim r.name ≠ "" ∧ 0 ≤ r.points ∧ 1 ≤ r.position ∧ r.position ≤ 1000 ∧
    r.category ≠ "" ∧ r.position ≠ 0 := by
  rw [(C4_topN_shape riders n).1] at hr
  have hsorted := List.take_subset _ _ hr
  have hfilter := (sortByPoints_perm _).mem_iff.mp hsorted
  have hvalid := (List.mem_filter.mp hfilter).2
  rw [isValidRider_eq_true_iff] at hvalid
  obtain ⟨h1, h2, h3, h4, h5⟩ := hvalid
  refine ⟨?_, ?_, ?_, ?_, ?_, ?_⟩
  · intro h
    rw [h] at h1
    exact h1 rfl
  · exact h3
  · exact h4
  · exact h5
  · intro h
    rw [h] at h2
    exact h2 rfl
  · intro h
    simp [defaultRankConfig] at h4
    omega

/-- C1: feeding the scenario CSV text through the full pipeline (CSV parse,
main-category extraction, then topN with N equal to 10) is claimed to yield
the two expected entries; the extractor does produce them (with the default
position 0, the tab having no position column), but the ranking stage
filters both out because isValidRider requires a position of at least 1, so
the pipeline output is empty rather than the expected pair. -/
theorem C1_scenario_pipeline :
    parseMainLeague c1RawData = c1Expected ∧
    getTopRiders defaultRankConfig (parseMainLeague c1RawData) 10 = [] ∧
    ([] : List Rider) ≠ c1Expected := by
  refine ⟨by decide, by decide, by decide⟩

/-- C2: an entry parsed from a tab without a position column (so position
takes the default value 0) with a nonempty name and a score at or above the
floor is claimed to pass the invariants and survive until ranking; the code
parses such an entry and the parser-side validateRider accepts it, but the
ranking-side isValidRider rejects it (the 1..1000 band is applied
unconditionally), so it is excluded before ranking. -/
theorem C2_default_rankHint_excluded :
    parseRiderRow ["John", "Doe", "150", "Test Club"] c1Indices "ML" = some c2Rider ∧
    c2Rider.position = 0 ∧
    validateRider c2Rider = true ∧
    c2Rider.name ≠ "" ∧
    0 ≤ c2Rider.points ∧
    isValidRider defaultRankConfig c2Rider = false ∧
    getTopRiders defaultRankConfig [c2Rider] 10 = [] := by
  refine ⟨by decide, by decide, by decide, by decide, by decide, by decide, by decide⟩

/-- C3 counterexample: a data row whose score cell does not parse as a
number is claimed to be dropped by validation, but the extractor coerces
the failed parse to 0 and keeps the record: the output contains an entry
derived from that row. -/
theorem C3_counterexample :
    parseFloatJS "abc" = none ∧
    parseRiderData c3Grid "ML" =
      [{ name := "John Doe", position := 0, points := 0,
         club := some "X", category := "ML" }] := by
  refine ⟨by decide, by decide⟩

/-- Inversion of parseRiderRow: a produced rider has a nonempty name and
its points are the or-zero default of the parsed score cell. -/
theorem iteNoneSomeInv {α : Type} {c : Prop} [Decidable c] {x r : α}
    (h : (if c then none else some x) = some r) : ¬c ∧ x = r := by
  split at h
  · exact absurd h (by simp)
  · exact ⟨by assumption, Option.some.inj h⟩

theorem parseRiderRow_inv (row : List String) (ci : ColumnIndices)
    (category : String) (r : Rider)
    (h : parseRiderRow row ci category = some r) :
    r.name ≠ "" ∧
    r.points = (if ci.points ≥ 0 then ((cellAt row ci.points).bind parseFloatJS).getD 0 else 0) := by
  obtain ⟨hname, hr⟩ := iteNoneSomeInv h
  obtain rfl := hr
  exact ⟨hname, rfl⟩

/-- C3 amended: for every data row of a grid whose header mapping is valid,
if the row is not blank, parses to a rider, and its score cell is missing
or fails to parse as a number, then the record is kept rather than dropped:
the extractor output contains that rider with score 0. -/
theorem C3_amended_score_coerced (headerRow : List String)
    (rows : List (List String)) (category : String) (row : List String) (r : Rider)
    (hmem : row ∈ rows)
    (hnb : rowIsBlank row = false)
    (hvalid : (findColumnIndices headerRow).valid = true)
    (hrow : parseRiderRow row (findColumnIndices headerRow) category = some r)
    (hscore : (cellAt row (findColumnIndices headerRow).points).bind parseFloatJS = none) :
    r.points = 0 ∧ r ∈ parseRiderData (headerRow :: rows) category := by
  obtain ⟨hname, hpts⟩ := parseRiderRow_inv row _ category r hrow
  have hpts0 : r.points = 0 := by
    rw [hpts, hscore]
    split <;> rfl
  refine ⟨hpts0, ?_⟩
  have hform : parseRiderData (headerRow :: rows) category =
      rows.filterMap (fun row =>
        if rowIsBlank row then none
        else match parseRiderRow row (findColumnIndices headerRow) category with
          | some r => if validateRider r then some r else none
          | none => none) := by
    simp only [parseRiderData, hvalid, Bool.not_true, Bool.false_eq_true, if_false]
  rw [hform]
  apply List.mem_filterMap.mpr
  refine ⟨row, hmem, ?_⟩
  rw [hnb]
  simp only [Bool.false_eq_true, if_false, hrow]
  have : validateRider r = true := by
    unfold validateRider
    exact decide_eq_true (stringLengthPos r.name hname)
  rw [this]
  simp

/-- Witness for the amended C3 at the concrete grid. -/
theorem C3_amended_score_coerced_witness :
    ({ name := "John Doe", position := 0, points := 0,
       club := some "X", category := "ML" } : Rider).points = 0 ∧
    ({ name := "John Doe", position := 0, points := 0,
       club := some "X", category := "ML" } : Rider) ∈
      parseRiderData c3Grid "ML" :=
  C3_amended_score_coerced ["First Name", "Last Name", "Total", "CI Club"]
    [["John", "Doe", "abc", "X"]] "ML" ["John", "Doe", "abc", "X"] _
    (by decide) (by decide) (by decide) (by decide) (by decide)

/-- The fetch loop collects exactly the successful tabs, in order. -/
theorem fetchSheetsLoop_eq_filterMap (results : List (String × FetchOutcome)) :
    fetchSheetsLoop results = results.filterMap sheetFromFetch := by
  induction results with
  | nil => rfl
  | cons p rest ih =>
    obtain ⟨tabName, outcome⟩ := p
    cases outcome <;> simp [fetchSheetsLoop, sheetFromFetch, List.filterMap_cons, ih]

/-- C6: a failure to fetch any single tab does not abort the batch: the
batch result is exactly the list of tabs that succeeded, and the batch
fails with the no-data error if and only if zero tabs succeed. -/
theorem C6_fetch_batch (results : List (String × FetchOutcome)) :
    (fetchAllSheets results = Except.error "Failed to fetch any sheet data" ↔
      ∀ p ∈ results, sheetFromFetch p = none) ∧
    (∀ sheets, fetchAllSheets results = Except.ok sheets →
      sheets = results.filterMap sheetFromFetch) := by
  unfold fetchAllSheets
  rw [fetchSheetsLoop_eq_filterMap]
  by_cases h : (results.filterMap sheetFromFetch).length = 0
  · constructor
    · rw [if_pos h]
      simp only [true_iff]
      exact fun p hp => List.filterMap_eq_nil_iff.mp (List.length_eq_zero.mp h) p hp
    · intro sheets hs
      rw [if_pos h] at hs
      exact absurd hs (by simp)
  · constructor
    · rw [if_neg h]
      constructor
      · intro hs
        exact absurd hs (by simp)
      · intro hall
        exact absurd (List.length_eq_zero.mpr (List.filterMap_eq_nil_iff.mpr hall)) h
    · intro sheets hs
      rw [if_neg h] at hs
      exact (Except.ok.inj hs).symm

/-- Witness for C6: a batch with one success and one thrown failure returns
exactly the successful tab. -/
theorem C6_fetch_batch_witness :
    ([{ name := "Main League", data := parseCSVText "a,b" }] : List SheetTab) =
      ([("Main League", FetchOutcome.success "a,b"),
        ("Dev League", FetchOutcome.thrown)]).filterMap sheetFromFetch :=
  (C6_fetch_batch _).2 _ rfl

/-- Witness for C10 at a concrete ranked output element. -/
theorem C10_output_invariant_witness :
    jsTrim (Rider.name { name := "A", position := 1, points := 10, club := none, category := "ML" }) ≠ "" ∧
    0 ≤ Rider.points { name := "A", position := 1, points := 10, club := none, category := "ML" } ∧
    1 ≤ Rider.position { name := "A", position := 1, points := 10, club := none, category := "ML" } ∧
    Rider.position { name := "A", position := 1, points := 10, club := none, category := "ML" } ≤ 1000 ∧
    Rider.category { name := "A", position := 1, points := 10, club := none, category := "ML" } ≠ "" ∧
    Rider.position { name := "A", position := 1, points := 10, club := none, category := "ML" } ≠ 0 :=
  C10_output_invariant
    [{ name := "A", position := 1, points := 10, club := none, category := "ML" },
     { name := "B", position := 2, points := 5, club := none, category := "ML" }] 1
    { name := "A", position := 1, points := 10, club := none, category := "ML" }
    (by decide)

/-- C7: the cache round-trip is claimed to restore every stored result
within the expiry window up to timestamp typing; but when the serialised
payload exceeds 1024 characters, CacheManager.set stores the whitespace-
collapsed serialisation, so a name holding two consecutive spaces comes
back with a single space: set followed by an in-window get corrupts the
data instead of round-tripping it. -/
theorem C7_cache_roundtrip_corrupts :
    (cmSet defaultCMConfig noCMOptions 0 CACHED_DATA_KEY c7Data []).1 = true ∧
    c7NameOf (some c7Data) = some "x  y" ∧
    c7NameOf (cmGet defaultCMConfig false 1 CACHED_DATA_KEY
        (cmSet defaultCMConfig noCMOptions 0 CACHED_DATA_KEY c7Data []).2).1 = some "x y" ∧
    ("x y" : String) ≠ "x  y" := by
  refine ⟨by rfl, by rfl, by rfl, by decide⟩

/-- Looking up the key just written returns the written entry. -/
theorem lookupAssoc_setAssoc {α : Type} (st : List (String × α)) (key : String) (v : α) :
    lookupAssoc (setAssoc st key v) key = some v := by
  simp [lookupAssoc, setAssoc, List.find?]

/-- C8 counterexample: with a fresh fetch failure and a two-minute-old
cached entry, the fallback render re-stores the cached result set, moving
the stored write timestamp from 0 to the fallback time 5000 instead of
leaving the entry unchanged. -/
theorem C8_counterexample :
    (loadData c8Config 5000 none c8Storage).1 =
      LoadOutcome.rendered (restoreLastUpdated c8Cached) ∧
    mainCacheTimestamp c8Storage = some 0 ∧
    mainCacheTimestamp (loadData c8Config 5000 none c8Storage).2 = some 5000 ∧
    (5000 : Int) ≠ 0 := by
  refine ⟨by rfl, by rfl, by rfl, by decide⟩

/-- C8 amended: whenever the live pipeline fails (fetchFreshData yields
null) and a cached entry within the expiry window exists, loadData renders
the cached result set and performs a fresh Cache.set: the stored entry is
overwritten with the rendered data and the fallback time as its new write
timestamp. -/
theorem C8_fallback_recaches (cfg : LoadConfig) (now t0 : Int) (cached : JVal)
    (st : MainStorage)
    (hc : cfg.enableCaching = true)
    (hlook : lookupAssoc st CACHED_DATA_KEY = some { data := cached, timestamp := t0 })
    (hfresh : now - t0 ≤ cfg.cacheExpiry) :
    (loadData cfg now none st).1 = LoadOutcome.rendered (restoreLastUpdated cached) ∧
    lookupAssoc (loadData cfg now none st).2 CACHED_DATA_KEY =
      some { data := restoreLastUpdated cached, timestamp := now } := by
  have hfetch : (if cfg.hasSheetsUrl then (none : Option JVal) else none) = none := by
    split <;> rfl
  have hget : getCachedDataMain cfg.cacheExpiry now st =
      (some (restoreLastUpdated cached), st) := by
    unfold getCachedDataMain
    rw [hlook]
    simp only []
    rw [if_neg (by omega)]
  simp only [loadData, hfetch, hc, hget, if_true, cacheDataMain]
  exact ⟨trivial, lookupAssoc_setAssoc _ _ _⟩

/-- Witness for the amended C8 at concrete inputs. -/
theorem C8_fallback_recaches_witness :
    (loadData c8Config 5000 none c8Storage).1 =
      LoadOutcome.rendered (restoreLastUpdated c8Cached) ∧
    lookupAssoc (loadData c8Config 5000 none c8Storage).2 CACHED_DATA_KEY =
      some { data := restoreLastUpdated c8Cached, timestamp := 5000 } :=
  C8_fallback_recaches c8Config 5000 0 c8Cached c8Storage rfl rfl (by decide)

/-- C9 counterexample: the base orchestrator refreshData (main.js) has no
re-entrancy guard: a call made while one load is in flight starts another
load, so two pipeline fetch cycles are in flight at once, and the call is
not a no-op on the state. -/
theorem C9_counterexample :
    (runBase [RefreshEvent.call]).inFlight = 1 ∧
    (runBase [RefreshEvent.call, RefreshEvent.call]).inFlight = 2 ∧
    refreshStepBase { inFlight := 1, refreshing := false } RefreshEvent.call ≠
      { inFlight := 1, refreshing := false } := by
  refine ⟨by decide, by decide, by decide⟩

/-- Invariant of the guarded orchestrator: at most one load in flight and
the flag tracks it exactly. -/
def guardedOk (s : RefreshState) : Prop :=
  s.inFlight ≤ 1 ∧ (s.refreshing = true ↔ s.inFlight = 1)

/-- One guarded step preserves the invariant. -/
theorem guardedOk_step (s : RefreshState) (e : RefreshEvent) (h : guardedOk s) :
    guardedOk (refreshStepGuarded s e) := by
  obtain ⟨h1, h2⟩ := h
  cases e with
  | call =>
    simp only [refreshStepGuarded]
    by_cases hg : s.refreshing
    · rw [if_pos hg]
      exact ⟨h1, h2⟩
    · rw [if_neg hg]
      have : s.inFlight ≠ 1 := fun hc => hg (h2.mpr hc)
      have h0 : s.inFlight = 0 := by omega
      exact ⟨by simp [h0], by simp [h0]⟩
  | complete =>
    simp only [refreshStepGuarded]
    refine ⟨by simp; omega, ?_⟩
    constructor
    · intro hc
      exact absurd hc (by simp)
    · intro hc
      simp at hc
      omega

/-- Runs of the guarded orchestrator stay within the invariant. -/
theorem guardedOk_run (events : List RefreshEvent) (s : RefreshState)
    (h : guardedOk s) : guardedOk (events.foldl refreshStepGuarded s) := by
  induction events generalizing s with
  | nil => exact h
  | cons e rest ih => exact ih _ (guardedOk_step s e h)

/-- C9 amended: only the CacheManager-enabled orchestrator variant guards
refreshData with the isRefreshing flag; there a call arriving while a
refresh is in flight is a no-op and at most one load is ever in flight,
whereas the base main.js refreshData has no guard. -/
theorem C9_guard_in_enhanced_variant (events : List RefreshEvent)
    (s : RefreshState) (hs : s.refreshing = true) :
    (runGuarded events).inFlight ≤ 1 ∧
    refreshStepGuarded s RefreshEvent.call = s :=
  ⟨(guardedOk_run events initialRefreshState ⟨by decide, by decide⟩).1,
   by simp only [refreshStepGuarded]; rw [if_pos hs]⟩

/-- Witness for the amended C9 at a concrete trace and state. -/
theorem C9_guard_in_enhanced_variant_witness :
    (runGuarded [RefreshEvent.call, RefreshEvent.call]).inFlight ≤ 1 ∧
    refreshStepGuarded { inFlight := 1, refreshing := true } RefreshEvent.call =
      { inFlight := 1, refreshing := true } :=
  C9_guard_in_enhanced_variant [RefreshEvent.call, RefreshEvent.call]
    { inFlight := 1, refreshing := true } rfl
